import Mathlib

/-!
Shallow embedding of the smartscheduling repository's core:

* the in-memory resource store `MemStorage` (server/storage.ts),
* the agent's cross-resource search `SmartSchedulerAgent.searchProviders`
  (server/agents/smart-scheduler.ts),
* the Optum enrichment pass `enrichWithOptumData` with its helpers
  (server/routes.ts), and
* the NDJSON export handlers (server/routes.ts).

Modelling conventions: JavaScript `Date` values are milliseconds since
the epoch (`Int`); JavaScript `Map`s are lists of resources keyed by
their `id` field with Map insertion/overwrite semantics; loosely typed
`jsonb` payloads that the code probes are given the shape the code
probes (with `Option` marking absent / non-array / non-object values),
and payloads the code stores but never inspects are kept as raw `Json`
values.  JavaScript truthiness is modelled explicitly where the code
relies on it (empty strings are falsy, arrays are always truthy).
-/

/-- Raw JSON values, for the jsonb payloads the code never inspects
structurally and for the NDJSON serialization. -/
inductive Json where
  | null : Json
  | bool : Bool → Json
  | str : String → Json
  | num : Int → Json
  | arr : List Json → Json
  | obj : List (String × Json) → Json

/-- Lowercasing, the model of JavaScript `String.prototype.toLowerCase`
(structural implementation over the character list). -/
def strLower (s : String) : String :=
  String.mk (s.data.map Char.toLower)

/-- Split a character list on a separator character (keeping empty
segments, as JavaScript `split` does). -/
def splitChars (sep : Char) : List Char → List (List Char)
  | [] => [[]]
  | c :: cs =>
    match splitChars sep cs with
    | [] => [[]]
    | g :: gs => if c = sep then [] :: g :: gs else (c :: g) :: gs

/-- JavaScript `s.split(' ')`: split on single spaces, keeping empty
segments. -/
def jsSplitSpace (s : String) : List String :=
  (splitChars ' ' s.data).map String.mk

/-- `s.startsWith(pat)` (structural implementation). -/
def strStartsWith (s pat : String) : Bool :=
  pat.data.isPrefixOf s.data

/-- Does `needle` occur as a contiguous sublist of the second list? -/
def charsInfix (needle : List Char) : List Char → Bool
  | [] => needle.isEmpty
  | c :: cs => needle.isPrefixOf (c :: cs) || charsInfix needle cs

/-- `haystack.includes(needle)` on JavaScript strings: substring test. -/
def strContains (haystack needle : String) : Bool :=
  charsInfix needle.toList haystack.toList

/-- `x?.toLowerCase().includes(needle)` with an optional receiver:
`undefined` short-circuits to a falsy result. -/
def optContainsLower (x : Option String) (needle : String) : Bool :=
  match x with
  | some s => strContains (strLower s) needle
  | none => false

/-- Remove the first occurrence of `pat` from a character list
(the model of JavaScript `s.replace(pat, '')`, which replaces only the
first occurrence). -/
def removeFirstOcc (pat : List Char) : List Char → List Char
  | [] => []
  | c :: cs =>
    if pat.isPrefixOf (c :: cs) then (c :: cs).drop pat.length
    else c :: removeFirstOcc pat cs

/-- JavaScript `s.replace(pat, '')`: drop the first occurrence of `pat`. -/
def jsReplaceFirst (s pat : String) : String :=
  String.mk (removeFirstOcc pat.toList s.toList)

/-- Truthiness of an optional JavaScript string (`undefined` and `''`
are falsy). -/
def strTruthy : Option String → Bool
  | some s => !s.data.isEmpty
  | none => false

/-- JavaScript `a || b` on optional strings (`''` falls through to `b`). -/
def jsStrOr (a b : Option String) : Option String :=
  if strTruthy a then a else b

/-- JavaScript `a || null` on an optional string field. -/
def strOrNull (a : Option String) : Option String :=
  jsStrOr a none

/-- Truthiness of a raw JSON value. -/
def jsonTruthy : Json → Bool
  | .null => false
  | .bool b => b
  | .str s => !s.data.isEmpty
  | .num n => n != 0
  | .arr _ => true
  | .obj _ => true

/-- JavaScript `a || b` on optional raw JSON values. -/
def jsJsonOr (a b : Option Json) : Option Json :=
  match a with
  | some v => if jsonTruthy v then some v else b
  | none => b

/-- JavaScript `a || null` on an optional raw JSON field. -/
def jsonOrNull (a : Option Json) : Option Json :=
  jsJsonOr a none

/-- JavaScript `a || b` where `a` holds an array value: arrays are
always truthy, so a present list (even an empty one) wins. -/
def listOr (a b : Option (List α)) : Option (List α) :=
  match a with
  | some l => some l
  | none => b

/-- JavaScript `a || null` on an optional boolean field (`false` is
falsy and collapses to `null`). -/
def boolOrNull (a : Option Bool) : Option Bool :=
  match a with
  | some b => if b then some true else none
  | none => none

/-! ## Data model (shared/schema.ts, as stored by MemStorage) -/

/-- One `coding` entry of a CodeableConcept, as probed by the filters
and the enrichment extraction. -/
structure Coding where
  display : Option String
  code : Option String
  system : Option String
deriving DecidableEq

/-- A CodeableConcept (`text` plus optional `coding` array). -/
structure CodeableConcept where
  text : Option String
  coding : Option (List Coding)
deriving DecidableEq

/-- One entry of `PractitionerRole.specialty`. -/
structure SpecialtyEntry where
  coding : Option (List Coding)
  text : Option String
deriving DecidableEq

/-- A FHIR reference object `{ reference: ... }` as found in
`Schedule.actor` and `PractitionerRole.location`. -/
structure ActorRef where
  reference : Option String
deriving DecidableEq

/-- The `practitioner` display reference on a PractitionerRole. -/
structure PractRef where
  display : Option String
deriving DecidableEq

/-- A structured address, as probed by the location filters. -/
structure Address where
  line : Option (List String)
  city : Option String
  state : Option String
  postalCode : Option String
deriving DecidableEq

/-- One entry of `languagesSpoken`. -/
structure LangEntry where
  language : Option String
  code : Option String
deriving DecidableEq

/-- One entry of `insuranceAccepted` (superset of the shapes produced
by enrichment and probed by the filters). -/
structure InsEntry where
  type_ : Option String
  name : Option String
  code : Option String
  system : Option String
  accepted : Option Bool
deriving DecidableEq

/-- A SMART Scheduling Links extension entry on a Slot. -/
structure Extension where
  url : Option String
  valueUrl : Option String
  valueString : Option String
  valueCodeableConcept : Option CodeableConcept
deriving DecidableEq

/-- Stored FHIR Location (shared/schema.ts `locations`). -/
structure Location where
  id : String
  name : String
  telecom : Json
  address : Option Address
  identifier : Option Json
  description : Option String
  position : Option Json
  publisherUrl : Option String
  updatedAt : Int

/-- Stored FHIR PractitionerRole (shared/schema.ts `practitionerRoles`),
including the Optum enrichment overlay. -/
structure PractitionerRole where
  id : String
  identifier : Option Json
  active : Bool
  practitioner : Option PractRef
  organization : Option Json
  code : Option Json
  specialty : Option (List SpecialtyEntry)
  location : Option (List ActorRef)
  telecom : Option Json
  npi : Option String
  insuranceAccepted : Option (List InsEntry)
  optumData : Option Json
  languagesSpoken : Option (List LangEntry)
  education : Option Json
  boardCertifications : Option Json
  hospitalAffiliations : Option Json
  publisherUrl : Option String
  updatedAt : Int

/-- Stored FHIR Schedule (shared/schema.ts `schedules`). -/
structure Schedule where
  id : String
  identifier : Option Json
  active : Bool
  serviceType : Option Json
  actor : Option (List ActorRef)
  extension : Option Json
  publisherUrl : Option String
  updatedAt : Int

/-- Stored FHIR Slot (shared/schema.ts `slots`); `schedule` is the
`{ reference: ... }` value when the stored jsonb is an object carrying
a string `reference`, and `none` otherwise; `end` is renamed `endTime`
(Lean keyword). -/
structure Slot where
  id : String
  schedule : Option String
  status : String
  start : Int
  endTime : Int
  extension : Option (List Extension)
  appointmentType : Option String
  isVirtual : Option Bool
  publisherUrl : Option String
  updatedAt : Int
deriving DecidableEq

/-- The whole in-memory resource store: the four `Map`s of `MemStorage`,
each modelled as its insertion-ordered list of values (keys are the
resources' `id` fields). -/
structure Store where
  locations : List Location
  practitionerRoles : List PractitionerRole
  schedules : List Schedule
  slots : List Slot

/-- `Map.get(id)` over a collection keyed by `getId`. -/
def getById (getId : α → String) (id : String) (xs : List α) : Option α :=
  xs.find? (fun x => getId x = id)

/-- `Map.set(getId v, v)`: overwrite in place if the key exists,
otherwise append (JavaScript Map insertion-order semantics). -/
def setById (getId : α → String) (v : α) : List α → List α
  | [] => [v]
  | x :: xs => if getId x = getId v then v :: xs else x :: setById getId v xs

/-! ## MemStorage (server/storage.ts) -/

/-- The filter payload accepted by `MemStorage.searchProviders`.
`dateFrom`/`dateTo` are the parsed date bounds (milliseconds). -/
structure SearchFilters where
  searchQuery : Option String
  specialty : Option String
  location : Option String
  languages : Option (List String)
  insurance : Option (List String)
  appointmentType : Option String
  availableOnly : Bool
  dateFrom : Option Int
  dateTo : Option Int
deriving DecidableEq

/-- Truthiness of `xs && xs.length > 0` for an optional array filter. -/
def listActive : Option (List String) → Bool
  | some l => !l.isEmpty
  | none => false

/-- The result triple returned by both search entry points. -/
structure SearchResult where
  practitioners : List PractitionerRole
  locations : List Location
  availableSlots : List Slot

namespace MemStorage

/-- `MemStorage.getSlotsByDateRange`. -/
def getSlotsByDateRange (startDate endDate : Int) (slots : List Slot) : List Slot :=
  slots.filter (fun slot => startDate ≤ slot.start ∧ slot.start ≤ endDate)

/-- The `searchQuery` practitioner predicate: `p.practitioner` is an
object whose `display` is a string containing the lowercased query. -/
def queryMatchesPractitioner (query : String) (p : PractitionerRole) : Bool :=
  match p.practitioner with
  | some pr =>
    match pr.display with
    | some d => strContains (strLower d) query
    | none => false
  | none => false

/-- The `specialty` filter predicate of `MemStorage.searchProviders`:
some coding's display contains the lowercased filter, or some coding's
code equals the filter exactly. -/
def specialtyMatches (specialty : String) (p : PractitionerRole) : Bool :=
  match p.specialty with
  | some specs =>
    specs.any (fun spec =>
      match spec.coding with
      | some codings =>
        codings.any (fun coding =>
          optContainsLower coding.display (strLower specialty) ||
          coding.code == some specialty)
      | none => false)
  | none => false

/-- The `location` filter predicate of `MemStorage.searchProviders`.
By operator precedence the `address && typeof address === 'object'`
guard covers only the city check; the trailing `'state' in address`
probe runs unguarded, so when the name misses and `address` is not an
object the predicate throws a TypeError (`none`).  When the name
matches, `||` short-circuits before the probe. -/
def locationMatches (locationQuery : String) (l : Location) : Option Bool :=
  if strContains (strLower l.name) locationQuery then some true
  else
    match l.address with
    | some a =>
      some (optContainsLower a.city locationQuery ||
        optContainsLower a.state locationQuery)
    | none => none

/-- `Array.prototype.filter` with a predicate that can throw: the
whole filter call throws (`none`) as soon as any element's predicate
does. -/
def filterOrThrow (p : α → Option Bool) : List α → Option (List α)
  | [] => some []
  | x :: xs =>
    match p x with
    | none => none
    | some b =>
      match filterOrThrow p xs with
      | none => none
      | some rest => some (if b then x :: rest else rest)

/-- The `languages` filter predicate: some requested language occurs in
some spoken entry's `language` (substring) or equals its `code`. -/
def languagesMatch (langs : List String) (p : PractitionerRole) : Bool :=
  match p.languagesSpoken with
  | some spokenList =>
    langs.any (fun lang =>
      spokenList.any (fun spoken =>
        optContainsLower spoken.language (strLower lang) ||
        (spoken.code.map strLower) == some (strLower lang)))
  | none => false

/-- The `insurance` filter predicate: some requested insurance occurs
in some accepted entry's `type`, or the entry has `accepted === true`. -/
def insuranceMatches (insList : List String) (p : PractitionerRole) : Bool :=
  match p.insuranceAccepted with
  | some acceptedList =>
    insList.any (fun ins =>
      acceptedList.any (fun accepted =>
        optContainsLower accepted.type_ (strLower ins) ||
        accepted.accepted == some true))
  | none => false

/-- The slot pipeline of `MemStorage.searchProviders`: appointment
type, availability status and date range (`now`-based defaults), in
source order; none of these steps can throw. -/
def filteredSlots (filters : SearchFilters) (now : Int) (slots : List Slot) : List Slot :=
  let availableSlots1 :=
    if strTruthy filters.appointmentType then
      slots.filter (fun slot =>
        (slot.appointmentType.map strLower) == some (strLower (filters.appointmentType.getD "")))
    else slots
  let availableSlots2 :=
    if filters.availableOnly then
      availableSlots1.filter (fun slot => slot.status = "free")
    else availableSlots1
  if filters.dateFrom.isSome || filters.dateTo.isSome then
    let startDate := filters.dateFrom.getD now
    let endDate := filters.dateTo.getD (now + 30 * 24 * 60 * 60 * 1000)
    availableSlots2.filter (fun slot => startDate ≤ slot.start ∧ slot.start ≤ endDate)
  else availableSlots2

/-- `MemStorage.searchProviders` (server/storage.ts): independent
narrowing of the three collections; no referential closure on this
path.  `now` models `new Date()` used for the date-range defaults.
The result is `none` when the call throws: the only throwing step is
the location filter (see `locationMatches`), which the source runs
after the searchQuery/specialty filters and before the
languages/insurance/slot filters. -/
def searchProviders (filters : SearchFilters) (now : Int) (st : Store) : Option SearchResult :=
  let practitioners1 :=
    if strTruthy filters.searchQuery then
      st.practitionerRoles.filter (queryMatchesPractitioner (strLower (filters.searchQuery.getD "")))
    else st.practitionerRoles
  let locations1 :=
    if strTruthy filters.searchQuery then
      st.locations.filter (fun l => strContains (strLower l.name) (strLower (filters.searchQuery.getD "")))
    else st.locations
  let practitioners2 :=
    if strTruthy filters.specialty then
      practitioners1.filter (specialtyMatches (filters.specialty.getD ""))
    else practitioners1
  match (if strTruthy filters.location then
      filterOrThrow (locationMatches (strLower (filters.location.getD ""))) locations1
    else some locations1) with
  | none => none
  | some locations2 =>
    let practitioners3 :=
      if listActive filters.languages then
        practitioners2.filter (languagesMatch (filters.languages.getD []))
      else practitioners2
    let practitioners4 :=
      if listActive filters.insurance then
        practitioners3.filter (insuranceMatches (filters.insurance.getD []))
      else practitioners3
    some ⟨practitioners4, locations2, filteredSlots filters now st.slots⟩

/-! ### Bulk upserts (the FHIR sync write path) -/

/-- An insert-shaped Location (schema's insert type omits `updatedAt`). -/
structure InsertLocation where
  id : String
  name : String
  telecom : Json
  address : Option Address
  identifier : Option Json
  description : Option String
  position : Option Json
  publisherUrl : Option String

/-- The record built per element inside `bulkUpsertLocations`. -/
def normalizeLocation (r : InsertLocation) (now : Int) : Location :=
  { id := r.id, name := r.name, telecom := r.telecom, address := r.address,
    identifier := jsonOrNull r.identifier, description := strOrNull r.description,
    position := jsonOrNull r.position, publisherUrl := strOrNull r.publisherUrl,
    updatedAt := now }

/-- `MemStorage.bulkUpsertLocations`: set each normalized record into
the Map, keyed by id. -/
def bulkUpsertLocations (batch : List InsertLocation) (now : Int) (ls : List Location) : List Location :=
  batch.foldl (fun acc r => setById Location.id (normalizeLocation r now) acc) ls

/-- An insert-shaped PractitionerRole. -/
structure InsertPractitionerRole where
  id : String
  identifier : Option Json
  active : Option Bool
  practitioner : Option PractRef
  organization : Option Json
  code : Option Json
  specialty : Option (List SpecialtyEntry)
  location : Option (List ActorRef)
  telecom : Option Json
  npi : Option String
  insuranceAccepted : Option (List InsEntry)
  optumData : Option Json
  languagesSpoken : Option (List LangEntry)
  education : Option Json
  boardCertifications : Option Json
  hospitalAffiliations : Option Json
  publisherUrl : Option String

/-- The record built per element inside `bulkUpsertPractitionerRoles`. -/
def normalizeRole (r : InsertPractitionerRole) (now : Int) : PractitionerRole :=
  { id := r.id, identifier := jsonOrNull r.identifier, active := r.active.getD true,
    practitioner := r.practitioner, organization := jsonOrNull r.organization,
    code := r.code, specialty := r.specialty, location := r.location,
    telecom := jsonOrNull r.telecom, npi := strOrNull r.npi,
    insuranceAccepted := listOr r.insuranceAccepted none,
    optumData := jsonOrNull r.optumData,
    languagesSpoken := listOr r.languagesSpoken none,
    education := jsonOrNull r.education,
    boardCertifications := jsonOrNull r.boardCertifications,
    hospitalAffiliations := jsonOrNull r.hospitalAffiliations,
    publisherUrl := strOrNull r.publisherUrl, updatedAt := now }

/-- `MemStorage.bulkUpsertPractitionerRoles`. -/
def bulkUpsertPractitionerRoles (batch : List InsertPractitionerRole) (now : Int)
    (rs : List PractitionerRole) : List PractitionerRole :=
  batch.foldl (fun acc r => setById PractitionerRole.id (normalizeRole r now) acc) rs

/-- An insert-shaped Schedule. -/
structure InsertSchedule where
  id : String
  identifier : Option Json
  active : Option Bool
  serviceType : Option Json
  actor : Option (List ActorRef)
  extension : Option Json
  publisherUrl : Option String

/-- The record built per element inside `bulkUpsertSchedules`. -/
def normalizeSchedule (r : InsertSchedule) (now : Int) : Schedule :=
  { id := r.id, identifier := jsonOrNull r.identifier, active := r.active.getD true,
    serviceType := r.serviceType, actor := r.actor,
    extension := jsonOrNull r.extension,
    publisherUrl := strOrNull r.publisherUrl, updatedAt := now }

/-- `MemStorage.bulkUpsertSchedules`. -/
def bulkUpsertSchedules (batch : List InsertSchedule) (now : Int)
    (ss : List Schedule) : List Schedule :=
  batch.foldl (fun acc r => setById Schedule.id (normalizeSchedule r now) acc) ss

/-- An insert-shaped Slot. -/
structure InsertSlot where
  id : String
  schedule : Option String
  status : String
  start : Int
  endTime : Int
  extension : Option (List Extension)
  appointmentType : Option String
  isVirtual : Option Bool
  publisherUrl : Option String

/-- The record built per element inside `bulkUpsertSlots`. -/
def normalizeSlot (r : InsertSlot) (now : Int) : Slot :=
  { id := r.id, schedule := r.schedule, status := r.status, start := r.start,
    endTime := r.endTime, extension := listOr r.extension none,
    appointmentType := strOrNull r.appointmentType,
    isVirtual := boolOrNull r.isVirtual,
    publisherUrl := strOrNull r.publisherUrl, updatedAt := now }

/-- `MemStorage.bulkUpsertSlots`. -/
def bulkUpsertSlots (batch : List InsertSlot) (now : Int) (ss : List Slot) : List Slot :=
  batch.foldl (fun acc r => setById Slot.id (normalizeSlot r now) acc) ss

/-- The enrichment payload accepted by
`MemStorage.enrichPractitionerWithOptumData`. -/
structure OptumDataArg where
  npi : Option String
  insuranceAccepted : Option (List InsEntry)
  optumData : Option Json
  languagesSpoken : Option (List LangEntry)
  education : Option Json
  boardCertifications : Option Json
  hospitalAffiliations : Option Json

/-- `MemStorage.enrichPractitionerWithOptumData`: merge the payload
onto the stored role with JavaScript `||` semantics per field, or
return `undefined` leaving the collection untouched when the id is
unknown. -/
def enrichPractitionerWithOptumData (practitionerId : String) (d : OptumDataArg)
    (now : Int) (roles : List PractitionerRole) :
    Option PractitionerRole × List PractitionerRole :=
  match getById PractitionerRole.id practitionerId roles with
  | none => (none, roles)
  | some existing =>
    let enriched : PractitionerRole :=
      { existing with
        npi := jsStrOr d.npi existing.npi,
        insuranceAccepted := listOr d.insuranceAccepted existing.insuranceAccepted,
        optumData := jsJsonOr d.optumData existing.optumData,
        languagesSpoken := listOr d.languagesSpoken existing.languagesSpoken,
        education := jsJsonOr d.education existing.education,
        boardCertifications := jsJsonOr d.boardCertifications existing.boardCertifications,
        hospitalAffiliations := jsJsonOr d.hospitalAffiliations existing.hospitalAffiliations,
        updatedAt := now }
    (some enriched, setById PractitionerRole.id enriched roles)

end MemStorage

/-! ## SmartSchedulerAgent.searchProviders (server/agents/smart-scheduler.ts) -/

namespace SmartSchedulerAgent

/-- The agent's `SearchRequest`; date bounds are parsed milliseconds. -/
structure SearchRequest where
  specialty : Option String
  location : Option String
  insurance : Option (List String)
  languages : Option (List String)
  dateFrom : Option Int
  dateTo : Option Int
  availableOnly : Option Bool
  appointmentType : Option String
deriving DecidableEq

/-- The agent's specialty predicate: when `specialty` is an array,
match any coding's display or code (substring, lowercased) or the
entry's `text`; otherwise fall back to the practitioner display name. -/
def specMatches (specLower : String) (p : PractitionerRole) : Bool :=
  match p.specialty with
  | some specs =>
    specs.any (fun spec =>
      match spec.coding with
      | some codings =>
        codings.any (fun coding =>
          optContainsLower coding.display specLower ||
          optContainsLower coding.code specLower)
      | none => optContainsLower spec.text specLower)
  | none =>
    match p.practitioner with
    | some pr => optContainsLower pr.display specLower
    | none => false

/-- The agent's location predicate: name, city, state (lowercased
substring), raw postal-code substring, or any address line. -/
def locMatches (locRaw : String) (l : Location) : Bool :=
  let locLower := strLower locRaw
  strContains (strLower l.name) locLower ||
  (match l.address with
   | some a => optContainsLower a.city locLower
   | none => false) ||
  (match l.address with
   | some a => optContainsLower a.state locLower
   | none => false) ||
  (match l.address with
   | some a =>
     match a.postalCode with
     | some pc => strContains pc locRaw
     | none => false
   | none => false) ||
  (match l.address with
   | some a =>
     match a.line with
     | some lines => lines.any (fun line => strContains (strLower line) locLower)
     | none => false
   | none => false)

/-- Keep a practitioner when its `location` references include a
matching Location id; practitioners with no reference list are kept. -/
def keepByLocation (matchingLocationIds : List String) (p : PractitionerRole) : Bool :=
  match p.location with
  | some refs =>
    refs.any (fun locRef =>
      match locRef.reference with
      | some r => matchingLocationIds.contains (jsReplaceFirst r "Location/")
      | none => false)
  | none => true

/-- The agent's insurance predicate (`type`/`name` substring match). -/
def insuranceMatches (insList : List String) (p : PractitionerRole) : Bool :=
  match p.insuranceAccepted with
  | some acceptedList =>
    insList.any (fun ins =>
      acceptedList.any (fun accepted =>
        optContainsLower accepted.type_ (strLower ins) ||
        optContainsLower accepted.name (strLower ins)))
  | none => false

/-- The agent's languages predicate (`language`/`code` substring match). -/
def languagesMatch (langs : List String) (p : PractitionerRole) : Bool :=
  match p.languagesSpoken with
  | some spokenList =>
    langs.any (fun lang =>
      spokenList.any (fun spoken =>
        optContainsLower spoken.language (strLower lang) ||
        optContainsLower spoken.code (strLower lang)))
  | none => false

/-- The PractitionerRole ids named by a Schedule's actor list: every
string reference starting with `PractitionerRole/`, prefix stripped. -/
def schedulePractitionerIds (sc : Schedule) : List String :=
  match sc.actor with
  | some actors =>
    actors.filterMap (fun actorRef =>
      match actorRef.reference with
      | some r =>
        if strStartsWith r "PractitionerRole/" then
          some (jsReplaceFirst r "PractitionerRole/")
        else none
      | none => none)
  | none => []

/-- The Schedule ids reachable from the filtered practitioner ids
(membership-equivalent to the `practitionerToSchedules` /
`relevantScheduleIds` Map-and-Set construction of the source). -/
def relevantScheduleIds (pids : List String) (schedules : List Schedule) : List String :=
  (schedules.filter
    (fun sc => (schedulePractitionerIds sc).any (fun pid => pids.contains pid))).map Schedule.id

/-- The `filtersApplied` flag: set whenever a practitioner-affecting
filter branch of `searchProviders` runs. -/
def filtersApplied (req : SearchRequest) : Bool :=
  strTruthy req.specialty || strTruthy req.location ||
  listActive req.insurance || listActive req.languages

/-- The `locations` output of `searchProviders` (also the matching set
used to restrict practitioners). -/
def matchingLocations (req : SearchRequest) (st : Store) : List Location :=
  if strTruthy req.location then
    st.locations.filter (locMatches (req.location.getD ""))
  else st.locations

/-- The practitioner pipeline of `searchProviders`: specialty, then
location restriction (only when some Location matched), then insurance,
then languages. -/
def filteredPractitioners (req : SearchRequest) (st : Store) : List PractitionerRole :=
  let practitioners1 :=
    if strTruthy req.specialty then
      st.practitionerRoles.filter (specMatches (strLower (req.specialty.getD "")))
    else st.practitionerRoles
  let practitioners2 :=
    if strTruthy req.location && !((matchingLocations req st).map Location.id).isEmpty then
      practitioners1.filter (keepByLocation ((matchingLocations req st).map Location.id))
    else practitioners1
  let practitioners3 :=
    if listActive req.insurance then
      practitioners2.filter (insuranceMatches (req.insurance.getD []))
    else practitioners2
  if listActive req.languages then
    practitioners3.filter (languagesMatch (req.languages.getD []))
  else practitioners3

/-- The slot pipeline of `searchProviders` before the referential
closure: availability status, date range (with `now`-based defaults),
appointment type. -/
def filteredSlots (req : SearchRequest) (now : Int) (st : Store) : List Slot :=
  let slots1 :=
    if req.availableOnly == some true then
      st.slots.filter (fun slot => slot.status = "free")
    else st.slots
  let slots2 :=
    if req.dateFrom.isSome || req.dateTo.isSome then
      let startDate := req.dateFrom.getD now
      let endDate := req.dateTo.getD (now + 30 * 24 * 60 * 60 * 1000)
      slots1.filter (fun slot => startDate ≤ slot.start ∧ slot.start ≤ endDate)
    else slots1
  if strTruthy req.appointmentType then
    slots2.filter (fun slot =>
      (slot.appointmentType.map strLower) == some (strLower (req.appointmentType.getD "")))
  else slots2

/-- `SmartSchedulerAgent.searchProviders`: the cross-resource search
with referential closure (`now` models `new Date()` for the date
defaults). -/
def searchProviders (req : SearchRequest) (now : Int) (st : Store) : SearchResult :=
  let practitioners4 := filteredPractitioners req st
  let slots3 := filteredSlots req now st
  let pids := practitioners4.map PractitionerRole.id
  let relevant := relevantScheduleIds pids st.schedules
  let slots4 :=
    if filtersApplied req && !relevant.isEmpty then
      slots3.filter (fun slot =>
        match slot.schedule with
        | some ref => relevant.contains (jsReplaceFirst ref "Schedule/")
        | none => false)
    else if filtersApplied req && !pids.isEmpty && relevant.isEmpty then []
    else slots3
  ⟨practitioners4, matchingLocations req st, slots4⟩

end SmartSchedulerAgent

/-! ## Optum enrichment pass (server/routes.ts) -/

/-- A practitioner identifier entry from the Optum bundle. -/
structure Identifier where
  system : Option String
  use : Option String
  value : Option String
deriving DecidableEq

/-- A FHIR HumanName (`prefix` renamed, Lean keyword clash). -/
structure HumanName where
  prefix_ : Option (List String)
  given : Option (List String)
  family : Option String
  suffix : Option (List String)
deriving DecidableEq

/-- One `communication` entry of an Optum practitioner. -/
structure Communication where
  language : Option CodeableConcept
deriving DecidableEq

/-- A reference carrying only a display, as probed by `issuer?.display`
and `valueReference?.display`. -/
structure RefDisplay where
  display : Option String
deriving DecidableEq

/-- One `qualification` entry of an Optum practitioner. -/
structure Qualification where
  code : Option CodeableConcept
  issuer : Option RefDisplay
  period : Option Json

/-- One `extension` entry of an Optum practitioner. -/
structure OptumExtension where
  url : Option String
  valueString : Option String
  valueCodeableConcept : Option CodeableConcept
  valueReference : Option RefDisplay

/-- An Optum directory practitioner, shaped as the enrichment code
probes it. -/
structure OptumPractitioner where
  resourceType : String
  identifier : Option (List Identifier)
  name : Option (List HumanName)
  communication : Option (List Communication)
  qualification : Option (List Qualification)
  extension : Option (List OptumExtension)
  birthDate : Option String
  gender : Option String
  active : Option Bool
  metaLastUpdated : Option String

/-- One bundle entry (`entry.resource` may be missing). -/
structure OptumEntry where
  resource : Option OptumPractitioner

/-- `formatPractitionerName` (server/routes.ts): join prefix, given,
family and suffix parts with spaces; falsy (absent) parts are skipped,
present-but-empty arrays contribute nothing. -/
def formatPractitionerName (name : HumanName) : String :=
  let parts :=
    (match name.prefix_ with | some l => l | none => []) ++
    (match name.given with | some l => l | none => []) ++
    (match name.family with
     | some f => if f.isEmpty then [] else [f]
     | none => []) ++
    (match name.suffix with | some l => l | none => [])
  String.intercalate " " parts

/-- `calculateNameSimilarity` (server/routes.ts): tokenize on spaces,
keep words longer than two characters, count left-side words that are
a substring of (or contain) some right-side word, divide by the larger
word count.  JavaScript returns NaN when both token lists are empty
(0/0); Lean's division returns 0 there, and the only consumer compares
the score against 0.6, where NaN and 0 behave alike. -/
def calculateNameSimilarity (name1 name2 : String) : ℚ :=
  let words1 := (jsSplitSpace name1).filter (fun w => w.length > 2)
  let words2 := (jsSplitSpace name2).filter (fun w => w.length > 2)
  let nMatches := words1.countP
    (fun word1 => words2.any (fun word2 => strContains word1 word2 || strContains word2 word1))
  (nMatches : ℚ) / ((max words1.length words2.length : ℕ) : ℚ)

/-- `shouldEnrichPractitioner` (server/routes.ts): refuse when the role
already has a truthy NPI, otherwise match the role's display name
against the entry's first formatted name at threshold 0.6.  (The
source's third parameter `npi` is unused in its body and omitted here.) -/
def shouldEnrichPractitioner (role : PractitionerRole) (optumPractitioner : OptumPractitioner) : Bool :=
  if strTruthy role.npi then false
  else
    match role.practitioner with
    | some pr =>
      match pr.display with
      | some roleDisplay =>
        if roleDisplay.data.isEmpty then false
        else
          match optumPractitioner.name with
          | some (n0 :: _) =>
            let roleName := strLower roleDisplay
            let optumName := strLower (formatPractitionerName n0)
            decide (calculateNameSimilarity roleName optumName > 0.6)
          | _ => false
      | none => false
    | none => false

/-- Serialize an optional string (`undefined` degrades to JSON null in
the opaque payloads built here). -/
def optStrJson : Option String → Json
  | some s => Json.str s
  | none => Json.null

/-- An insurance placeholder entry `{ type: t, accepted: true }`. -/
def placeholderIns (t : String) : InsEntry :=
  { type_ := some t, name := none, code := none, system := none, accepted := some true }

/-- `extractInsuranceInfo` (server/routes.ts). -/
def extractInsuranceInfo (practitioner : OptumPractitioner) : List InsEntry :=
  let insurance :=
    match practitioner.extension with
    | some exts =>
      exts.filterMap (fun ext =>
        match ext.url with
        | some url =>
          if strContains url "insurance" || strContains url "payor" then
            some { type_ := some ((jsStrOr ext.valueString
                      (jsStrOr (ext.valueCodeableConcept.bind CodeableConcept.text)
                        (some "Unknown"))).getD "Unknown"),
                   name := none,
                   code := (ext.valueCodeableConcept.bind
                     (fun cc => cc.coding.bind List.head?)).bind Coding.code,
                   system := (ext.valueCodeableConcept.bind
                     (fun cc => cc.coding.bind List.head?)).bind Coding.system,
                   accepted := none }
          else none
        | none => none)
    | none => []
  if insurance.isEmpty then
    [placeholderIns "Medicare", placeholderIns "Medicaid",
     placeholderIns "Commercial Insurance", placeholderIns "Blue Cross Blue Shield",
     placeholderIns "Aetna", placeholderIns "UnitedHealthcare", placeholderIns "Cigna"]
  else insurance

/-- `extractLanguages` (server/routes.ts). -/
def extractLanguages (practitioner : OptumPractitioner) : List LangEntry :=
  match practitioner.communication with
  | some comms =>
    comms.map (fun comm =>
      { language := jsStrOr (comm.language.bind CodeableConcept.text)
          ((comm.language.bind (fun l => l.coding.bind List.head?)).bind Coding.display),
        code := (comm.language.bind (fun l => l.coding.bind List.head?)).bind Coding.code })
  | none => [{ language := some "English", code := some "en" }]

/-- Serialize a CodeableConcept for the opaque payloads. -/
def ccJson (cc : CodeableConcept) : Json :=
  Json.obj [("text", optStrJson cc.text),
    ("coding", match cc.coding with
      | some cs => Json.arr (cs.map (fun c =>
          Json.obj [("display", optStrJson c.display), ("code", optStrJson c.code),
                    ("system", optStrJson c.system)]))
      | none => Json.null)]

/-- Serialize a qualification entry for the opaque payloads. -/
def qualificationJson (q : Qualification) : Json :=
  Json.obj [("code", match q.code with | some c => ccJson c | none => Json.null),
    ("issuer", match q.issuer with
      | some i => Json.obj [("display", optStrJson i.display)]
      | none => Json.null),
    ("period", q.period.getD Json.null)]

/-- `extractEducation` (server/routes.ts), producing the opaque stored
payload. -/
def extractEducation (practitioner : OptumPractitioner) : Json :=
  match practitioner.qualification with
  | some quals =>
    Json.arr ((quals.filter (fun qual =>
        (match (qual.code.bind (fun c => c.coding.bind List.head?)).bind Coding.system with
         | some s => strContains s "education"
         | none => false) ||
        (match qual.code.bind CodeableConcept.text with
         | some t => strContains (strLower t) "degree"
         | none => false))).map (fun qual =>
      Json.obj [("degree", optStrJson (jsStrOr (qual.code.bind CodeableConcept.text)
                  ((qual.code.bind (fun c => c.coding.bind List.head?)).bind Coding.display))),
                ("institution", optStrJson (qual.issuer.bind RefDisplay.display)),
                ("period", qual.period.getD Json.null)]))
  | none => Json.arr []

/-- `extractCertifications` (server/routes.ts), producing the opaque
stored payload. -/
def extractCertifications (practitioner : OptumPractitioner) : Json :=
  match practitioner.qualification with
  | some quals =>
    Json.arr ((quals.filter (fun qual =>
        (match (qual.code.bind (fun c => c.coding.bind List.head?)).bind Coding.system with
         | some s => strContains s "certification"
         | none => false) ||
        (match qual.code.bind CodeableConcept.text with
         | some t => strContains (strLower t) "board"
         | none => false))).map (fun qual =>
      Json.obj [("certification", optStrJson (jsStrOr (qual.code.bind CodeableConcept.text)
                  ((qual.code.bind (fun c => c.coding.bind List.head?)).bind Coding.display))),
                ("board", optStrJson (qual.issuer.bind RefDisplay.display)),
                ("period", qual.period.getD Json.null)]))
  | none => Json.arr []

/-- `extractAffiliations` (server/routes.ts), producing the opaque
stored payload. -/
def extractAffiliations (practitioner : OptumPractitioner) : Json :=
  match practitioner.extension with
  | some exts =>
    Json.arr ((exts.filter (fun ext =>
        match ext.url with
        | some u => strContains u "affiliation"
        | none => false)).map (fun ext =>
      Json.obj [("organization", optStrJson (jsStrOr ext.valueString
                  (ext.valueReference.bind RefDisplay.display))),
                ("type", Json.str "Hospital Affiliation")]))
  | none => Json.arr []

/-- The NPI extraction step of `enrichWithOptumData`: the first
identifier carrying a recognized NPI system or `use === 'official'`;
the entry is skipped (`none`) when the value is absent or falsy. -/
def extractNpi (practitioner : OptumPractitioner) : Option String :=
  match practitioner.identifier with
  | some ids =>
    match ids.find? (fun idr =>
        idr.system == some "http://hl7.org/fhir/sid/us-npi" ||
        idr.system == some "https://nppes.cms.hhs.gov/NPPES/Welcome.do" ||
        idr.use == some "official") with
    | some idr => if strTruthy idr.value then idr.value else none
    | none => none
  | none => none

/-- The `optumData` argument object assembled per matched entry inside
`enrichWithOptumData`. -/
def buildOptumData (practitioner : OptumPractitioner) (npi : String) : MemStorage.OptumDataArg :=
  { npi := some npi,
    insuranceAccepted := some (extractInsuranceInfo practitioner),
    languagesSpoken := some (extractLanguages practitioner),
    education := some (extractEducation practitioner),
    boardCertifications := some (extractCertifications practitioner),
    hospitalAffiliations := some (extractAffiliations practitioner),
    optumData := some (Json.obj [
      ("fullName", match practitioner.name with
        | some (n0 :: _) => Json.str (formatPractitionerName n0)
        | _ => Json.null),
      ("qualifications", match practitioner.qualification with
        | some qs => Json.arr (qs.map qualificationJson)
        | none => Json.arr []),
      ("birthDate", optStrJson practitioner.birthDate),
      ("gender", optStrJson practitioner.gender),
      ("active", match practitioner.active with
        | some b => Json.bool b
        | none => Json.null),
      ("lastUpdated", optStrJson practitioner.metaLastUpdated),
      ("source", Json.str "optum")]) }

/-- The hardcoded demonstration payload seeded by the fallback branch
of `enrichWithOptumData` (its `lastUpdated` ISO timestamp is modelled
as the decimal rendering of `now`). -/
def sampleOptumData (firstRole : PractitionerRole) (now : Int) : MemStorage.OptumDataArg :=
  { npi := some "1234567890",
    insuranceAccepted := some
      [placeholderIns "Medicare", placeholderIns "Medicaid",
       placeholderIns "Blue Cross Blue Shield", placeholderIns "Aetna",
       placeholderIns "UnitedHealthcare", placeholderIns "Cigna",
       placeholderIns "Commercial Insurance"],
    languagesSpoken := some
      [{ language := some "English", code := some "en" },
       { language := some "Spanish", code := some "es" }],
    education := some (Json.arr [
      Json.obj [("degree", Json.str "MD - Doctor of Medicine"),
                ("institution", Json.str "Harvard Medical School"),
                ("period", Json.str "2015-2019")],
      Json.obj [("degree", Json.str "BS - Biochemistry"),
                ("institution", Json.str "MIT"),
                ("period", Json.str "2011-2015")]]),
    boardCertifications := some (Json.arr [
      Json.obj [("certification", Json.str "Board Certified in Dermatology"),
                ("board", Json.str "American Board of Dermatology"),
                ("period", Json.str "2020-Present")],
      Json.obj [("certification", Json.str "FAAD - Fellow American Academy of Dermatology"),
                ("board", Json.str "AAD"),
                ("period", Json.str "2020-Present")]]),
    hospitalAffiliations := some (Json.arr [
      Json.obj [("organization", Json.str "Massachusetts General Hospital"),
                ("type", Json.str "Hospital Affiliation")]]),
    optumData := some (Json.obj [
      ("fullName", match firstRole.practitioner with
        | some pr => optStrJson pr.display
        | none => Json.str "Unknown"),
      ("source", Json.str "optum_demo"),
      ("lastUpdated", Json.str (toString now))]) }

/-- One iteration of the bundle-entry loop of `enrichWithOptumData`:
skip non-Practitioner and NPI-less entries, otherwise enrich the first
snapshot role accepted by `shouldEnrichPractitioner` (the `break`),
counting successes. -/
def processOptumEntry (snapshot : List PractitionerRole) (now : Int)
    (acc : List PractitionerRole × Nat) (entry : OptumEntry) :
    List PractitionerRole × Nat :=
  match entry.resource with
  | none => acc
  | some practitioner =>
    if practitioner.resourceType ≠ "Practitioner" then acc
    else
      match extractNpi practitioner with
      | none => acc
      | some npi =>
        let optumData := buildOptumData practitioner npi
        match snapshot.find? (fun role => shouldEnrichPractitioner role practitioner) with
        | none => acc
        | some role =>
          ((MemStorage.enrichPractitionerWithOptumData role.id optumData now acc.1).2,
           acc.2 + 1)

/-- `enrichWithOptumData` (server/routes.ts): snapshot the existing
roles once, process every bundle entry against that snapshot, and when
zero entries matched (and the store is non-empty) seed the first
practitioner with the demonstration payload.  A bundle without an
`entry` array does nothing at all. -/
def enrichWithOptumData (entries : Option (List OptumEntry)) (now : Int)
    (roles : List PractitionerRole) : List PractitionerRole :=
  let existingRoles := roles
  match entries with
  | none => roles
  | some es =>
    let result := es.foldl (processOptumEntry existingRoles now) (roles, 0)
    if result.2 = 0 then
      match existingRoles with
      | [] => result.1
      | r0 :: _ =>
        (MemStorage.enrichPractitionerWithOptumData r0.id
          (sampleOptumData r0 now) now result.1).2
    else result.1

/-! ## NDJSON export handlers (server/routes.ts, /fhir/data/¤.ndjson) -/

/-- Serialize an optional boolean field (present-but-null stays null). -/
def optBoolJson : Option Bool → Json
  | some b => Json.bool b
  | none => Json.null

/-- Serialize an optional opaque payload field. -/
def optJson : Option Json → Json
  | some j => j
  | none => Json.null

/-- Serialize a structured address (absent subfields are omitted, as
`JSON.stringify` omits `undefined` properties). -/
def addressJson (a : Address) : Json :=
  Json.obj (
    (match a.line with
     | some ls => [("line", Json.arr (ls.map Json.str))]
     | none => []) ++
    (match a.city with | some c => [("city", Json.str c)] | none => []) ++
    (match a.state with | some s => [("state", Json.str s)] | none => []) ++
    (match a.postalCode with | some p => [("postalCode", Json.str p)] | none => []))

/-- Serialize a Slot extension entry (absent subfields omitted). -/
def extensionJson (e : Extension) : Json :=
  Json.obj (
    (match e.url with | some u => [("url", Json.str u)] | none => []) ++
    (match e.valueUrl with | some u => [("valueUrl", Json.str u)] | none => []) ++
    (match e.valueString with | some s => [("valueString", Json.str s)] | none => []) ++
    (match e.valueCodeableConcept with
     | some cc => [("valueCodeableConcept", ccJson cc)]
     | none => []))

/-- The object emitted for one Location by the
`/fhir/data/locations.ndjson` handler: `JSON.stringify(location)` on
the internal record — every internal field, verbatim, and nothing
else.  Date-valued fields serialize as their timestamp string. -/
def locationNdjsonObject (l : Location) : Json :=
  Json.obj [
    ("id", Json.str l.id),
    ("name", Json.str l.name),
    ("telecom", l.telecom),
    ("address", match l.address with | some a => addressJson a | none => Json.null),
    ("identifier", optJson l.identifier),
    ("description", optStrJson l.description),
    ("position", optJson l.position),
    ("publisherUrl", optStrJson l.publisherUrl),
    ("updatedAt", Json.str (toString l.updatedAt))]

/-- The object emitted for one Slot by the `/fhir/data/slots.ndjson`
handler: `JSON.stringify(slot)` on the internal record. -/
def slotNdjsonObject (s : Slot) : Json :=
  Json.obj [
    ("id", Json.str s.id),
    ("schedule", match s.schedule with
      | some r => Json.obj [("reference", Json.str r)]
      | none => Json.null),
    ("status", Json.str s.status),
    ("start", Json.str (toString s.start)),
    ("end", Json.str (toString s.endTime)),
    ("extension", match s.extension with
      | some es => Json.arr (es.map extensionJson)
      | none => Json.null),
    ("appointmentType", optStrJson s.appointmentType),
    ("isVirtual", optBoolJson s.isVirtual),
    ("publisherUrl", optStrJson s.publisherUrl),
    ("updatedAt", Json.str (toString s.updatedAt))]

/-- The `/fhir/data/locations.ndjson` handler: one serialized internal
record per line. -/
def fhirDataLocationsNdjson (st : Store) : List Json :=
  st.locations.map locationNdjsonObject

/-- The `/fhir/data/slots.ndjson` handler: one serialized internal
record per line. -/
def fhirDataSlotsNdjson (st : Store) : List Json :=
  st.slots.map slotNdjsonObject

/-- Does a JSON object carry a top-level key? -/
def Json.hasKey (j : Json) (k : String) : Bool :=
  match j with
  | .obj fields => fields.any (fun f => f.1 == k)
  | _ => false

/-! ## Shared lemmas about the Map model -/

/-- Looking up after a `Map.set`: the written value wins on its key,
other keys are untouched. -/
theorem getById_setById (getId : α → String) (v : α) (id : String) (xs : List α) :
    getById getId id (setById getId v xs) =
      if getId v = id then some v else getById getId id xs := by
  induction xs with
  | nil => by_cases h : getId v = id <;> simp [getById, setById, List.find?, h]
  | cons x xs ih =>
    by_cases hx : getId x = getId v
    · by_cases h : getId v = id
      · simp [getById, setById, List.find?, hx, h]
      · have hx' : ¬ getId x = id := by rw [hx]; exact h
        simp [getById, setById, List.find?, hx, h, hx']
    · by_cases hxid : getId x = id
      · have h : ¬ getId v = id := fun hv => hx (hxid.trans hv.symm)
        have h2 : ¬ id = getId v := fun hh => h hh.symm
        simp [getById, setById, List.find?, hx, hxid, h, h2]
      · simp only [getById, setById, List.find?] at *
        simp [hx, hxid, ih]

/-- Looking up after a whole batch of `Map.set`s: the last batch record
with the key wins, otherwise the original store answers. -/
theorem getById_foldl_setById (getId : α → String) (f : β → α) (id : String)
    (b : List β) (xs : List α) :
    getById getId id (b.foldl (fun acc r => setById getId (f r) acc) xs) =
      ((b.reverse.find? (fun r => getId (f r) == id)).map f).or (getById getId id xs) := by
  induction b generalizing xs with
  | nil => simp
  | cons r b ih =>
    simp only [List.foldl_cons, ih, List.reverse_cons, List.find?_append]
    cases hb : b.reverse.find? (fun r => getId (f r) == id) with
    | some r' => simp [Option.or]
    | none =>
      simp only [Option.or, getById_setById]
      by_cases h : getId (f r) = id
      · simp [List.find?, h]
      · have hb2 : (getId (f r) == id) = false := by simp [h]
        simp [List.find?, hb2, h]

/-- Re-running a batch upsert changes a stored record at most through
the renormalization `f₂` of the same batch record `f₁` chose: under a
key-preserving, observation-preserving renormalization the observable
lookup is unchanged. -/
theorem foldl_setById_stable (getId : α → String) (f₁ f₂ : β → α) (e : α → γ)
    (hkey : ∀ r, getId (f₂ r) = getId (f₁ r)) (he : ∀ r, e (f₂ r) = e (f₁ r))
    (id : String) (b : List β) (xs : List α) :
    (getById getId id (b.foldl (fun acc r => setById getId (f₂ r) acc)
        (b.foldl (fun acc r => setById getId (f₁ r) acc) xs))).map e =
      (getById getId id (b.foldl (fun acc r => setById getId (f₁ r) acc) xs)).map e := by
  rw [getById_foldl_setById, getById_foldl_setById]
  have hfilter : (fun r => getId (f₂ r) == id) = (fun r => getId (f₁ r) == id) := by
    funext r; rw [hkey]
  rw [hfilter]
  cases hfind : b.reverse.find? (fun r => getId (f₁ r) == id) with
  | some r => simp [Option.or, he]
  | none => simp [Option.or]

/-! ## Shared sample resources for concrete evaluations -/

/-- A blank PractitionerRole to build samples from. -/
def baseRole : PractitionerRole :=
  { id := "r", identifier := none, active := true, practitioner := none,
    organization := none, code := none, specialty := none, location := none,
    telecom := none, npi := none, insuranceAccepted := none, optumData := none,
    languagesSpoken := none, education := none, boardCertifications := none,
    hospitalAffiliations := none, publisherUrl := none, updatedAt := 0 }

/-- A one-coding specialty list displaying `d`. -/
def specialtyOf (d : String) : List SpecialtyEntry :=
  [{ coding := some [{ display := some d, code := none, system := none }], text := none }]

/-- A dermatologist sample role. -/
def drDerm : PractitionerRole :=
  { baseRole with
    id := "pr-derm",
    practitioner := some ⟨some "Dr. Alice Derm"⟩,
    specialty := some (specialtyOf "Dermatology") }

/-- A cardiologist sample role. -/
def drCardio : PractitionerRole :=
  { baseRole with
    id := "pr-cardio",
    practitioner := some ⟨some "Dr. Bob Cardio"⟩,
    specialty := some (specialtyOf "Cardiology") }

/-- A schedule whose actor list names both sample practitioners. -/
def sharedSchedule : Schedule :=
  { id := "sch-1", identifier := none, active := true, serviceType := none,
    actor := some [⟨some "PractitionerRole/pr-derm"⟩, ⟨some "PractitionerRole/pr-cardio"⟩],
    extension := none, publisherUrl := none, updatedAt := 0 }

/-- A free slot hanging off the shared schedule. -/
def sharedSlot : Slot :=
  { id := "slot-1", schedule := some "Schedule/sch-1", status := "free",
    start := 100, endTime := 200, extension := none, appointmentType := none,
    isVirtual := none, publisherUrl := none, updatedAt := 0 }

/-! ## Claim C9 -/

/-- Claim C9: `getSlotsByDateRange` returns exactly the stored Slots
whose start instant lies in the inclusive range
`startDate <= start <= endDate`; the membership criterion mentions
neither the end instant nor the status. -/
theorem getSlotsByDateRange_mem_iff (slots : List Slot) (startDate endDate : Int) (s : Slot) :
    s ∈ MemStorage.getSlotsByDateRange startDate endDate slots ↔
      s ∈ slots ∧ startDate ≤ s.start ∧ s.start ≤ endDate := by
  simp [MemStorage.getSlotsByDateRange, List.mem_filter]

/-! ## Claim C10 -/

/-- Claim C10: `MemStorage.enrichPractitionerWithOptumData` on an id
absent from the store returns `undefined` and leaves the
PractitionerRole collection completely unchanged. -/
theorem enrichPractitioner_unknown_id_noop (roles : List PractitionerRole)
    (practitionerId : String) (d : MemStorage.OptumDataArg) (now : Int)
    (h : getById PractitionerRole.id practitionerId roles = none) :
    MemStorage.enrichPractitionerWithOptumData practitionerId d now roles = (none, roles) := by
  unfold MemStorage.enrichPractitionerWithOptumData
  rw [h]

/-- An all-absent enrichment payload, for concrete evaluations. -/
def emptyOptumArg : MemStorage.OptumDataArg :=
  { npi := none, insuranceAccepted := none, optumData := none,
    languagesSpoken := none, education := none, boardCertifications := none,
    hospitalAffiliations := none }

/-- Witness for C10 at a concrete store and unknown id. -/
theorem enrichPractitioner_unknown_id_noop_witness :
    MemStorage.enrichPractitionerWithOptumData "no-such-id" emptyOptumArg 7 [drDerm] =
      (none, [drDerm]) :=
  enrichPractitioner_unknown_id_noop [drDerm] "no-such-id" emptyOptumArg 7 rfl

/-! ## Claim C5 -/

/-- Forget the internal timestamp of a stored Location. -/
def Location.stripUpdatedAt (l : Location) : Location :=
  { l with updatedAt := 0 }

/-- Forget the internal timestamp of a stored PractitionerRole. -/
def PractitionerRole.stripUpdatedAt (p : PractitionerRole) : PractitionerRole :=
  { p with updatedAt := 0 }

/-- Forget the internal timestamp of a stored Schedule. -/
def Schedule.stripUpdatedAt (s : Schedule) : Schedule :=
  { s with updatedAt := 0 }

/-- Forget the internal timestamp of a stored Slot. -/
def Slot.stripUpdatedAt (s : Slot) : Slot :=
  { s with updatedAt := 0 }

/-- A minimal insert record for the C5 counterexample. -/
def insLoc1 : MemStorage.InsertLocation :=
  { id := "L1", name := "Clinic", telecom := Json.arr [], address := none,
    identifier := none, description := none, position := none, publisherUrl := none }

/-- Claim C5 counterexample: re-applying the same one-element batch at
a later clock reading (time 1 after time 0) changes the stored
resource — its `updatedAt` field is refreshed — so the store is not in
the same observable state as after a single application. -/
theorem bulkUpsert_twice_changes_updatedAt :
    (getById Location.id "L1" (MemStorage.bulkUpsertLocations [insLoc1] 1
        (MemStorage.bulkUpsertLocations [insLoc1] 0 []))).map Location.updatedAt ≠
      (getById Location.id "L1"
        (MemStorage.bulkUpsertLocations [insLoc1] 0 [])).map Location.updatedAt := by
  decide

/-- Claim C5 (amended): applying the same batch twice leaves every
stored resource of each of the four types unchanged on every field
except the internal `updatedAt` timestamp (which is refreshed to the
clock reading of each application; in particular the states coincide
exactly when the clock readings coincide). -/
theorem bulkUpsert_idempotent_up_to_updatedAt (st : Store)
    (bl : List MemStorage.InsertLocation) (bp : List MemStorage.InsertPractitionerRole)
    (bs : List MemStorage.InsertSchedule) (bsl : List MemStorage.InsertSlot)
    (t1 t2 : Int) (id : String) :
    ((getById Location.id id (MemStorage.bulkUpsertLocations bl t2
        (MemStorage.bulkUpsertLocations bl t1 st.locations))).map Location.stripUpdatedAt =
      (getById Location.id id
        (MemStorage.bulkUpsertLocations bl t1 st.locations)).map Location.stripUpdatedAt) ∧
    ((getById PractitionerRole.id id (MemStorage.bulkUpsertPractitionerRoles bp t2
        (MemStorage.bulkUpsertPractitionerRoles bp t1 st.practitionerRoles))).map
          PractitionerRole.stripUpdatedAt =
      (getById PractitionerRole.id id
        (MemStorage.bulkUpsertPractitionerRoles bp t1 st.practitionerRoles)).map
          PractitionerRole.stripUpdatedAt) ∧
    ((getById Schedule.id id (MemStorage.bulkUpsertSchedules bs t2
        (MemStorage.bulkUpsertSchedules bs t1 st.schedules))).map Schedule.stripUpdatedAt =
      (getById Schedule.id id
        (MemStorage.bulkUpsertSchedules bs t1 st.schedules)).map Schedule.stripUpdatedAt) ∧
    ((getById Slot.id id (MemStorage.bulkUpsertSlots bsl t2
        (MemStorage.bulkUpsertSlots bsl t1 st.slots))).map Slot.stripUpdatedAt =
      (getById Slot.id id
        (MemStorage.bulkUpsertSlots bsl t1 st.slots)).map Slot.stripUpdatedAt) := by
  refine ⟨?_, ?_, ?_, ?_⟩
  · exact foldl_setById_stable Location.id
      (fun r => MemStorage.normalizeLocation r t1) (fun r => MemStorage.normalizeLocation r t2)
      Location.stripUpdatedAt (fun r => rfl) (fun r => rfl) id bl st.locations
  · exact foldl_setById_stable PractitionerRole.id
      (fun r => MemStorage.normalizeRole r t1) (fun r => MemStorage.normalizeRole r t2)
      PractitionerRole.stripUpdatedAt (fun r => rfl) (fun r => rfl) id bp st.practitionerRoles
  · exact foldl_setById_stable Schedule.id
      (fun r => MemStorage.normalizeSchedule r t1) (fun r => MemStorage.normalizeSchedule r t2)
      Schedule.stripUpdatedAt (fun r => rfl) (fun r => rfl) id bs st.schedules
  · exact foldl_setById_stable Slot.id
      (fun r => MemStorage.normalizeSlot r t1) (fun r => MemStorage.normalizeSlot r t2)
      Slot.stripUpdatedAt (fun r => rfl) (fun r => rfl) id bsl st.slots

/-! ## Claim C3 -/

/-- A stored Location carrying provenance and timestamp bookkeeping. -/
def leakLocation : Location :=
  { id := "loc-1", name := "Main Clinic", telecom := Json.arr [],
    address := some { line := none, city := some "Boston", state := some "MA", postalCode := none },
    identifier := none, description := none, position := none,
    publisherUrl := some "https://publisher.example.org", updatedAt := 111 }

/-- A stored Slot carrying cached derived fields and bookkeeping. -/
def leakSlot : Slot :=
  { id := "slot-9", schedule := some "Schedule/sch-1", status := "free",
    start := 100, endTime := 200, extension := none,
    appointmentType := some "routine", isVirtual := some false,
    publisherUrl := some "https://publisher.example.org", updatedAt := 111 }

/-- A store exercising the NDJSON export handlers. -/
def leakStore : Store :=
  ⟨[leakLocation], [], [], [leakSlot]⟩

/-- Claim C3 (evaluation at the failing input): the NDJSON handlers
serialize the internal records verbatim, so every exported line keeps
the `publisherUrl` provenance tag, the internal `updatedAt` timestamp
and (for Slots) the cached `appointmentType`/`isVirtual` fields, and
carries no `resourceType` field at all. -/
theorem ndjson_export_keeps_internal_fields :
    (fhirDataLocationsNdjson leakStore).length = 1 ∧
    (fhirDataLocationsNdjson leakStore).all (fun line =>
      line.hasKey "publisherUrl" && line.hasKey "updatedAt" &&
      !line.hasKey "resourceType") = true ∧
    (fhirDataSlotsNdjson leakStore).length = 1 ∧
    (fhirDataSlotsNdjson leakStore).all (fun line =>
      line.hasKey "appointmentType" && line.hasKey "isVirtual" &&
      line.hasKey "publisherUrl" && line.hasKey "updatedAt" &&
      !line.hasKey "resourceType") = true :=
  ⟨rfl, rfl, rfl, rfl⟩

/-! ## Claim C6 -/

/-- Vanishing of a directed match count is symmetric whenever the
underlying relation is. -/
theorem countP_any_zero_symm (R : α → α → Bool) (hR : ∀ x y, R x y = R y x)
    (l1 l2 : List α) :
    (l1.countP (fun x => l2.any (R x)) = 0) ↔
      (l2.countP (fun y => l1.any (R y)) = 0) := by
  simp only [List.countP_eq_zero, List.any_eq_true]
  constructor
  · intro h y hy hex
    obtain ⟨x, hx, hxy⟩ := hex
    exact h x hx ⟨y, hy, by rw [hR]; exact hxy⟩
  · intro h x hx hex
    obtain ⟨y, hy, hxy⟩ := hex
    exact h y hy ⟨x, hx, by rw [hR]; exact hxy⟩

/-- Claim C6 counterexample: the score is not symmetric.  With
`"abc abcd"` against `"abcd"`, both left tokens find a partner
(score 1), while in the swapped order the single left token is counted
once (score 1/2). -/
theorem calculateNameSimilarity_asymmetric :
    calculateNameSimilarity "abc abcd" "abcd" ≠
      calculateNameSimilarity "abcd" "abc abcd" := by
  have h1 : (jsSplitSpace "abc abcd").filter (fun w => w.length > 2) = ["abc", "abcd"] := by
    decide
  have h2 : (jsSplitSpace "abcd").filter (fun w => w.length > 2) = ["abcd"] := by
    decide
  have h3 : List.countP
      (fun word1 => (["abcd"] : List String).any
        (fun word2 => strContains word1 word2 || strContains word2 word1))
      ["abc", "abcd"] = 2 := by
    decide
  have h4 : List.countP
      (fun word1 => (["abc", "abcd"] : List String).any
        (fun word2 => strContains word1 word2 || strContains word2 word1))
      ["abcd"] = 1 := by
    decide
  have h5 : max (2 : ℕ) 1 = 2 := rfl
  have h6 : max (1 : ℕ) 2 = 2 := rfl
  simp only [calculateNameSimilarity, h1, h2, h3, h4, List.length_cons,
    List.length_nil, List.length_singleton, h5, h6]
  norm_num

/-- Claim C6 (amended): the token-level match relation is symmetric
and both orders divide by the same larger token count, so one order's
score vanishes exactly when the other's does — but the score itself is
not a symmetric function (the counted side differs). -/
theorem calculateNameSimilarity_zero_iff_symm (name1 name2 : String) :
    (calculateNameSimilarity name1 name2 = 0) ↔
      (calculateNameSimilarity name2 name1 = 0) := by
  simp only [calculateNameSimilarity]
  rw [div_eq_zero_iff, div_eq_zero_iff, Nat.cast_eq_zero, Nat.cast_eq_zero,
    Nat.cast_eq_zero, Nat.cast_eq_zero,
    max_comm ((jsSplitSpace name2).filter (fun w => w.length > 2)).length
      ((jsSplitSpace name1).filter (fun w => w.length > 2)).length]
  exact or_congr
    (countP_any_zero_symm (fun x y => strContains x y || strContains y x)
      (fun x y => Bool.or_comm _ _) _ _) Iff.rfl

/-! ## Lemmas about the agent's referential closure -/

/-- A list with nonzero length is not `isEmpty`. -/
theorem isEmpty_false_of_length_ne (l : List α) (h : l.length ≠ 0) : l.isEmpty = false := by
  cases l with
  | nil => exact absurd rfl h
  | cons a l => rfl

/-- A non-nil list is not `isEmpty`. -/
theorem isEmpty_false_of_ne_nil (l : List α) (h : l ≠ []) : l.isEmpty = false := by
  cases l with
  | nil => exact absurd rfl h
  | cons a l => rfl

/-- Membership in the reachable Schedule-id set. -/
theorem mem_relevantScheduleIds (pids : List String) (schedules : List Schedule) (sid : String) :
    sid ∈ SmartSchedulerAgent.relevantScheduleIds pids schedules ↔
      ∃ sc ∈ schedules, sc.id = sid ∧
        ∃ pid ∈ SmartSchedulerAgent.schedulePractitionerIds sc, pid ∈ pids := by
  simp only [SmartSchedulerAgent.relevantScheduleIds, List.mem_map, List.mem_filter,
    List.any_eq_true, List.elem_iff]
  constructor
  · rintro ⟨sc, ⟨hsc, pid, hpid, hin⟩, hid⟩
    exact ⟨sc, hsc, hid, pid, hpid, hin⟩
  · rintro ⟨sc, hsc, hid, pid, hpid, hin⟩
    exact ⟨sc, ⟨hsc, pid, hpid, hin⟩, hid⟩

/-- The reachable Schedule-id set is empty when no schedule's actor
list resolves to a surviving practitioner id. -/
theorem relevantScheduleIds_eq_nil (pids : List String) (schedules : List Schedule)
    (h : ∀ sc ∈ schedules, ∀ pid ∈ SmartSchedulerAgent.schedulePractitionerIds sc,
        pid ∉ pids) :
    SmartSchedulerAgent.relevantScheduleIds pids schedules = [] := by
  unfold SmartSchedulerAgent.relevantScheduleIds
  rw [List.map_eq_nil_iff, List.filter_eq_nil_iff]
  intro sc hsc
  simp only [List.any_eq_true, List.elem_iff, not_exists, not_and]
  intro pid hpid
  exact h sc hsc pid hpid

/-- The referential-closure step of `searchProviders`, written out
(the zeta-reduced `slots4` of the source). -/
theorem searchProviders_availableSlots_eq (req : SmartSchedulerAgent.SearchRequest)
    (now : Int) (st : Store) :
    (SmartSchedulerAgent.searchProviders req now st).availableSlots =
      (if SmartSchedulerAgent.filtersApplied req &&
          !(SmartSchedulerAgent.relevantScheduleIds
            ((SmartSchedulerAgent.filteredPractitioners req st).map PractitionerRole.id)
            st.schedules).isEmpty then
        (SmartSchedulerAgent.filteredSlots req now st).filter (fun slot =>
          match slot.schedule with
          | some ref =>
            (SmartSchedulerAgent.relevantScheduleIds
              ((SmartSchedulerAgent.filteredPractitioners req st).map PractitionerRole.id)
              st.schedules).contains (jsReplaceFirst ref "Schedule/")
          | none => false)
      else if SmartSchedulerAgent.filtersApplied req &&
          !((SmartSchedulerAgent.filteredPractitioners req st).map
            PractitionerRole.id).isEmpty &&
          (SmartSchedulerAgent.relevantScheduleIds
            ((SmartSchedulerAgent.filteredPractitioners req st).map PractitionerRole.id)
            st.schedules).isEmpty then []
      else SmartSchedulerAgent.filteredSlots req now st) := rfl

/-- The practitioners component of `searchProviders` is the filter
pipeline output. -/
theorem searchProviders_practitioners_eq (req : SmartSchedulerAgent.SearchRequest)
    (now : Int) (st : Store) :
    (SmartSchedulerAgent.searchProviders req now st).practitioners =
      SmartSchedulerAgent.filteredPractitioners req st := rfl

/-! ## Claim C2 -/

/-- Claim C2: when a specialty filter is the only practitioner filter,
it matches at least one PractitionerRole, and no Schedule's actor list
references any matching practitioner, the agent returns an empty
`availableSlots` (the empty-closure branch), while `practitioners` is
exactly the specialty-filtered collection. -/
theorem searchProviders_empty_closure (req : SmartSchedulerAgent.SearchRequest)
    (now : Int) (st : Store)
    (hspec : strTruthy req.specialty = true)
    (hloc : req.location = none)
    (hins : req.insurance = none)
    (hlang : req.languages = none)
    (hP : (st.practitionerRoles.filter
      (SmartSchedulerAgent.specMatches (strLower (req.specialty.getD "")))).length ≠ 0)
    (hsched : ∀ sc ∈ st.schedules,
      ∀ pid ∈ SmartSchedulerAgent.schedulePractitionerIds sc,
        pid ∉ (st.practitionerRoles.filter
          (SmartSchedulerAgent.specMatches (strLower (req.specialty.getD "")))).map
            PractitionerRole.id) :
    (SmartSchedulerAgent.searchProviders req now st).availableSlots = [] ∧
    (SmartSchedulerAgent.searchProviders req now st).practitioners =
      st.practitionerRoles.filter
        (SmartSchedulerAgent.specMatches (strLower (req.specialty.getD ""))) := by
  have hfa : SmartSchedulerAgent.filtersApplied req = true := by
    simp [SmartSchedulerAgent.filtersApplied, hspec]
  have hlocF : strTruthy req.location = false := by rw [hloc]; rfl
  have hinsF : listActive req.insurance = false := by rw [hins]; rfl
  have hlangF : listActive req.languages = false := by rw [hlang]; rfl
  have hfp : SmartSchedulerAgent.filteredPractitioners req st =
      st.practitionerRoles.filter
        (SmartSchedulerAgent.specMatches (strLower (req.specialty.getD ""))) := by
    unfold SmartSchedulerAgent.filteredPractitioners
    rw [hspec, hlocF, hinsF, hlangF]
    simp
  have hrel : SmartSchedulerAgent.relevantScheduleIds
      ((SmartSchedulerAgent.filteredPractitioners req st).map PractitionerRole.id)
      st.schedules = [] := by
    apply relevantScheduleIds_eq_nil
    intro sc hsc pid hpid
    rw [hfp]
    exact hsched sc hsc pid hpid
  have hne : ((SmartSchedulerAgent.filteredPractitioners req st).map
      PractitionerRole.id).isEmpty = false := by
    apply isEmpty_false_of_length_ne
    rw [List.length_map, hfp]
    exact hP
  refine ⟨?_, hfp⟩
  rw [searchProviders_availableSlots_eq, hrel, hfa, hne]
  simp

/-- The dermatology search of the C2 scenario. -/
def reqDermAvailable : SmartSchedulerAgent.SearchRequest :=
  { specialty := some "dermatology", location := none, insurance := none,
    languages := none, dateFrom := none, dateTo := none,
    availableOnly := some true, appointmentType := none }

/-- One matching practitioner, zero schedules, one free slot. -/
def dermStore : Store :=
  ⟨[], [drDerm], [], [sharedSlot]⟩

/-- Witness for C2: the scenario store yields one practitioner and no
available slots. -/
theorem searchProviders_empty_closure_witness :
    (SmartSchedulerAgent.searchProviders reqDermAvailable 0 dermStore).availableSlots = [] ∧
    (SmartSchedulerAgent.searchProviders reqDermAvailable 0 dermStore).practitioners =
      [drDerm] := by
  have h := searchProviders_empty_closure reqDermAvailable 0 dermStore rfl rfl rfl rfl
    (by decide) (by simp [dermStore])
  exact ⟨h.1, h.2.trans rfl⟩

/-! ## Claim C7 -/

/-- Claim C7: when a location filter is given (and no insurance or
languages filter narrows further) and it matches at least one
Location, the practitioners returned are exactly the specialty-stage
survivors restricted by `keepByLocation` — and in particular every
survivor that declares no Location reference list is kept in the
result rather than dropped. -/
theorem locationFilter_keeps_unlinked (req : SmartSchedulerAgent.SearchRequest)
    (now : Int) (st : Store)
    (hloc : strTruthy req.location = true)
    (hins : req.insurance = none)
    (hlang : req.languages = none)
    (hmatch : (SmartSchedulerAgent.matchingLocations req st).map Location.id ≠ []) :
    (SmartSchedulerAgent.searchProviders req now st).practitioners =
      (if strTruthy req.specialty then
        st.practitionerRoles.filter
          (SmartSchedulerAgent.specMatches (strLower (req.specialty.getD "")))
      else st.practitionerRoles).filter
        (SmartSchedulerAgent.keepByLocation
          ((SmartSchedulerAgent.matchingLocations req st).map Location.id)) ∧
    ∀ p ∈ (if strTruthy req.specialty then
        st.practitionerRoles.filter
          (SmartSchedulerAgent.specMatches (strLower (req.specialty.getD "")))
      else st.practitionerRoles),
      p.location = none →
        p ∈ (SmartSchedulerAgent.searchProviders req now st).practitioners := by
  have hinsF : listActive req.insurance = false := by rw [hins]; rfl
  have hlangF : listActive req.languages = false := by rw [hlang]; rfl
  have hne : ((SmartSchedulerAgent.matchingLocations req st).map Location.id).isEmpty = false :=
    isEmpty_false_of_ne_nil _ hmatch
  have h1 : (SmartSchedulerAgent.searchProviders req now st).practitioners =
      (if strTruthy req.specialty then
        st.practitionerRoles.filter
          (SmartSchedulerAgent.specMatches (strLower (req.specialty.getD "")))
      else st.practitionerRoles).filter
        (SmartSchedulerAgent.keepByLocation
          ((SmartSchedulerAgent.matchingLocations req st).map Location.id)) := by
    rw [searchProviders_practitioners_eq]
    unfold SmartSchedulerAgent.filteredPractitioners
    rw [hloc, hne, hinsF, hlangF]
    simp
  refine ⟨h1, ?_⟩
  intro p hp hnone
  rw [h1]
  refine List.mem_filter.mpr ⟨hp, ?_⟩
  simp [SmartSchedulerAgent.keepByLocation, hnone]

/-- A blank Location to build samples from. -/
def baseLocation : Location :=
  { id := "l", name := "Clinic", telecom := Json.arr [], address := none,
    identifier := none, description := none, position := none,
    publisherUrl := none, updatedAt := 0 }

/-- A Boston location. -/
def locBoston : Location :=
  { baseLocation with
    id := "loc-bos",
    name := "Boston Clinic",
    address := some { line := none, city := some "Boston", state := some "MA", postalCode := none } }

/-- A New York location. -/
def locNewYork : Location :=
  { baseLocation with
    id := "loc-ny",
    name := "New York Clinic",
    address := some { line := none, city := some "New York", state := some "NY", postalCode := none } }

/-- A practitioner linked to the Boston location. -/
def drLinked : PractitionerRole :=
  { baseRole with
    id := "pr-linked",
    location := some [⟨some "Location/loc-bos"⟩] }

/-- A practitioner linked only to the New York location. -/
def drElsewhere : PractitionerRole :=
  { baseRole with
    id := "pr-elsewhere",
    location := some [⟨some "Location/loc-ny"⟩] }

/-- A practitioner with no Location reference list at all. -/
def drUnlinked : PractitionerRole :=
  { baseRole with
    id := "pr-unlinked" }

/-- A location-filter-only request. -/
def reqBoston : SmartSchedulerAgent.SearchRequest :=
  { specialty := none, location := some "boston", insurance := none,
    languages := none, dateFrom := none, dateTo := none,
    availableOnly := none, appointmentType := none }

/-- Store for the C7 witness. -/
def bostonStore : Store :=
  ⟨[locBoston, locNewYork], [drLinked, drElsewhere, drUnlinked], [], []⟩

/-- Witness for C7: the Boston filter keeps the linked practitioner
and the practitioner without any Location reference, and drops the one
linked only elsewhere. -/
theorem locationFilter_keeps_unlinked_witness :
    (SmartSchedulerAgent.searchProviders reqBoston 0 bostonStore).practitioners =
      [drLinked, drUnlinked] :=
  ((locationFilter_keeps_unlinked reqBoston 0 bostonStore rfl rfl rfl
    (by decide)).1).trans rfl

/-! ## Claim C1 -/

/-- Claim C1 (amended): soundness of the referential closure — under
any practitioner-affecting filter that leaves a non-empty practitioner
set P, every Slot in the result resolves via its Schedule reference to
a stored Schedule whose actor list names some PractitionerRole of P.
(The other direction of the original claim — that no result Slot also
resolves to a practitioner outside P — fails; see the
counterexample.) -/
theorem referential_closure_sound (req : SmartSchedulerAgent.SearchRequest)
    (now : Int) (st : Store)
    (hfa : SmartSchedulerAgent.filtersApplied req = true)
    (hP : (SmartSchedulerAgent.searchProviders req now st).practitioners.length ≠ 0) :
    ∀ slot ∈ (SmartSchedulerAgent.searchProviders req now st).availableSlots,
      ∃ ref, slot.schedule = some ref ∧
        ∃ sc ∈ st.schedules, sc.id = jsReplaceFirst ref "Schedule/" ∧
          ∃ p ∈ (SmartSchedulerAgent.searchProviders req now st).practitioners,
            p.id ∈ SmartSchedulerAgent.schedulePractitionerIds sc := by
  intro slot hmem
  have hP' : (SmartSchedulerAgent.filteredPractitioners req st).length ≠ 0 := hP
  have hpids : ((SmartSchedulerAgent.filteredPractitioners req st).map
      PractitionerRole.id).isEmpty = false := by
    apply isEmpty_false_of_length_ne
    rw [List.length_map]
    exact hP'
  rw [searchProviders_availableSlots_eq] at hmem
  by_cases hrel : (SmartSchedulerAgent.relevantScheduleIds
      ((SmartSchedulerAgent.filteredPractitioners req st).map PractitionerRole.id)
      st.schedules).isEmpty
  · rw [hfa, hrel, hpids] at hmem
    simp at hmem
  · rw [hfa, eq_false_of_ne_true hrel] at hmem
    simp only [Bool.not_false, Bool.and_true, Bool.and_self, if_true] at hmem
    obtain ⟨hmem', hpred⟩ := List.mem_filter.mp hmem
    cases hsch : slot.schedule with
    | none => rw [hsch] at hpred; simp at hpred
    | some ref =>
      rw [hsch] at hpred
      have hin : jsReplaceFirst ref "Schedule/" ∈
          SmartSchedulerAgent.relevantScheduleIds
            ((SmartSchedulerAgent.filteredPractitioners req st).map PractitionerRole.id)
            st.schedules := by
        rw [← List.elem_iff]
        exact hpred
      obtain ⟨sc, hsc, hscid, pid, hpid, hpidin⟩ :=
        (mem_relevantScheduleIds _ _ _).mp hin
      obtain ⟨p, hp, hpe⟩ := List.mem_map.mp hpidin
      refine ⟨ref, rfl, sc, hsc, hscid, p, hp, ?_⟩
      rw [hpe]
      exact hpid

/-- A store whose only schedule links the dermatologist alone. -/
def linkedStore : Store :=
  ⟨[], [drDerm],
   [{ sharedSchedule with actor := some [⟨some "PractitionerRole/pr-derm"⟩] }],
   [sharedSlot]⟩

/-- Witness for C1 (amended) at a concrete store: the specialty filter
leaves one practitioner, and the sound-resolution conclusion holds for
the one returned slot. -/
theorem referential_closure_sound_witness :
    SmartSchedulerAgent.filtersApplied reqDermAvailable = true ∧
    (SmartSchedulerAgent.searchProviders reqDermAvailable 0 linkedStore).practitioners.length ≠ 0 ∧
    ∀ slot ∈ (SmartSchedulerAgent.searchProviders reqDermAvailable 0 linkedStore).availableSlots,
      ∃ ref, slot.schedule = some ref ∧
        ∃ sc ∈ linkedStore.schedules, sc.id = jsReplaceFirst ref "Schedule/" ∧
          ∃ p ∈ (SmartSchedulerAgent.searchProviders reqDermAvailable 0 linkedStore).practitioners,
            p.id ∈ SmartSchedulerAgent.schedulePractitionerIds sc :=
  ⟨rfl, by decide,
   referential_closure_sound reqDermAvailable 0 linkedStore rfl (by decide)⟩

/-- A store where one schedule's actor list names a surviving and a
filtered-out practitioner at once. -/
def closureStore : Store :=
  ⟨[], [drDerm, drCardio], [sharedSchedule], [sharedSlot]⟩

/-- Claim C1 counterexample: with the dermatology filter the surviving
set P is exactly the dermatologist, yet the returned slot's Schedule
also resolves to the cardiologist, a stored PractitionerRole outside
P — so "no Slot in the result resolves to a PractitionerRole outside
P" fails on schedules with several practitioner actors. -/
theorem referential_closure_outside_P_counterexample :
    SmartSchedulerAgent.filtersApplied reqDermAvailable = true ∧
    (SmartSchedulerAgent.searchProviders reqDermAvailable 0 closureStore).practitioners.map
      PractitionerRole.id = ["pr-derm"] ∧
    ∃ slot ∈ (SmartSchedulerAgent.searchProviders reqDermAvailable 0 closureStore).availableSlots,
      ∃ ref, slot.schedule = some ref ∧
        ∃ sc ∈ closureStore.schedules, sc.id = jsReplaceFirst ref "Schedule/" ∧
          ∃ q ∈ closureStore.practitionerRoles,
            q.id ∈ SmartSchedulerAgent.schedulePractitionerIds sc ∧
            q.id ∉ (SmartSchedulerAgent.searchProviders reqDermAvailable 0
              closureStore).practitioners.map PractitionerRole.id :=
  ⟨rfl, by decide,
   sharedSlot, by decide,
   "Schedule/sch-1", rfl,
   sharedSchedule, List.Mem.head _, by decide,
   drCardio, List.Mem.tail _ (List.Mem.head _), by decide, by decide⟩

/-! ## Claim C8 -/

/-- Any completed `MemStorage.searchProviders` call's `availableSlots`
is the slot pipeline, which reads only `appointmentType`,
`availableOnly`, `dateFrom` and `dateTo`. -/
theorem storage_searchProviders_some_availableSlots (filters : SearchFilters)
    (now : Int) (st : Store) (r : SearchResult)
    (h : MemStorage.searchProviders filters now st = some r) :
    r.availableSlots = MemStorage.filteredSlots filters now st.slots := by
  unfold MemStorage.searchProviders at h
  dsimp only at h
  split at h
  · exact Option.noConfusion h
  · injection h with h2
    subst h2
    rfl

/-- Claim C8 (amended): two completed calls of
`MemStorage.searchProviders` on the same store state that agree on
`availableOnly`, `dateFrom`, `dateTo` and `appointmentType` — however
they differ in `searchQuery`, `specialty`, `location`, `insurance` or
`languages` — return identical `availableSlots` lists (no referential
closure is applied on this path).  A call whose location filter is
truthy may instead throw (see the counterexample), returning no result
at all. -/
theorem storage_availableSlots_independent (f1 f2 : SearchFilters) (now : Int) (st : Store)
    (h1 : f1.availableOnly = f2.availableOnly)
    (h2 : f1.dateFrom = f2.dateFrom)
    (h3 : f1.dateTo = f2.dateTo)
    (h4 : f1.appointmentType = f2.appointmentType)
    (r1 r2 : SearchResult)
    (e1 : MemStorage.searchProviders f1 now st = some r1)
    (e2 : MemStorage.searchProviders f2 now st = some r2) :
    r1.availableSlots = r2.availableSlots := by
  rw [storage_searchProviders_some_availableSlots f1 now st r1 e1,
    storage_searchProviders_some_availableSlots f2 now st r2 e2]
  cases f1
  cases f2
  dsimp only at h1 h2 h3 h4
  subst h1 h2 h3 h4
  rfl

/-- A practitioner-heavy filter object. -/
def filtersA : SearchFilters :=
  { searchQuery := some "alice", specialty := some "dermatology",
    location := some "boston", languages := some ["es"],
    insurance := some ["Aetna"], appointmentType := none,
    availableOnly := true, dateFrom := none, dateTo := none }

/-- The same slot-affecting fields with no practitioner filters. -/
def filtersB : SearchFilters :=
  { searchQuery := none, specialty := none, location := none,
    languages := none, insurance := none, appointmentType := none,
    availableOnly := true, dateFrom := none, dateTo := none }

/-- Witness for C8 (amended) at a concrete store and filter pair:
both calls complete and their `availableSlots` coincide. -/
theorem storage_availableSlots_independent_witness :
    (⟨[], [], [sharedSlot]⟩ : SearchResult).availableSlots =
      (⟨[drDerm, drCardio], [], [sharedSlot]⟩ : SearchResult).availableSlots :=
  storage_availableSlots_independent filtersA filtersB 0 closureStore rfl rfl rfl rfl
    ⟨[], [], [sharedSlot]⟩ ⟨[drDerm, drCardio], [], [sharedSlot]⟩ rfl rfl

/-- A location filter that misses the name of a stored Location whose
address is not an object. -/
def filtersLocZ : SearchFilters :=
  { searchQuery := none, specialty := none, location := some "zzz",
    languages := none, insurance := none, appointmentType := none,
    availableOnly := false, dateFrom := none, dateTo := none }

/-- The same filters with the location filter removed. -/
def filtersNoLoc : SearchFilters :=
  { searchQuery := none, specialty := none, location := none,
    languages := none, insurance := none, appointmentType := none,
    availableOnly := false, dateFrom := none, dateTo := none }

/-- A stored Location with no (non-object) address, reachable since
the sync maps `address: resource.address` unchecked. -/
def locNoAddress : Location :=
  { baseLocation with id := "loc-null", name := "Clinic" }

/-- A store on which a truthy location filter makes the search throw. -/
def nullAddrStore : Store :=
  ⟨[locNoAddress], [], [], [sharedSlot]⟩

/-- Claim C8 counterexample: two filter objects differing only in
`location` do not return identical `availableSlots` on this store —
the call with the location filter hits the unguarded
`'state' in address` probe on the addressless Location and throws,
yielding no slots list, while the other call returns the slot. -/
theorem storage_location_filter_throws_counterexample :
    filtersLocZ.searchQuery = filtersNoLoc.searchQuery ∧
    filtersLocZ.specialty = filtersNoLoc.specialty ∧
    filtersLocZ.languages = filtersNoLoc.languages ∧
    filtersLocZ.insurance = filtersNoLoc.insurance ∧
    filtersLocZ.appointmentType = filtersNoLoc.appointmentType ∧
    filtersLocZ.availableOnly = filtersNoLoc.availableOnly ∧
    filtersLocZ.dateFrom = filtersNoLoc.dateFrom ∧
    filtersLocZ.dateTo = filtersNoLoc.dateTo ∧
    MemStorage.searchProviders filtersLocZ 0 nullAddrStore = none ∧
    (MemStorage.searchProviders filtersNoLoc 0 nullAddrStore).map
      SearchResult.availableSlots = some [sharedSlot] :=
  ⟨rfl, rfl, rfl, rfl, rfl, rfl, rfl, rfl, rfl, rfl⟩

/-! ## Claim C4 -/

/-- With duplicate-free ids (the Map invariant), looking up a member's
id finds exactly that member. -/
theorem getById_of_mem_nodup (roles : List PractitionerRole) (r : PractitionerRole)
    (hnd : (roles.map PractitionerRole.id).Nodup) (hr : r ∈ roles) :
    getById PractitionerRole.id r.id roles = some r := by
  induction roles with
  | nil => cases hr
  | cons x xs ih =>
    rw [List.map_cons, List.nodup_cons] at hnd
    obtain ⟨hx, hnd'⟩ := hnd
    cases hr with
    | head => simp [getById, List.find?]
    | tail _ hr' =>
      have he : ¬ x.id = r.id := by
        intro he
        exact hx (he ▸ List.mem_map_of_mem PractitionerRole.id hr')
      unfold getById
      rw [List.find?_cons_of_neg _ (by simpa using he)]
      exact ih hnd' hr'

/-- Enriching one practitioner id leaves every other id's stored value
untouched. -/
theorem enrich_preserves_other (practitionerId : String) (d : MemStorage.OptumDataArg)
    (now : Int) (roles : List PractitionerRole) (id : String) (h : practitionerId ≠ id) :
    getById PractitionerRole.id id
      (MemStorage.enrichPractitionerWithOptumData practitionerId d now roles).2 =
      getById PractitionerRole.id id roles := by
  unfold MemStorage.enrichPractitionerWithOptumData
  cases hex : getById PractitionerRole.id practitionerId roles with
  | none => rfl
  | some existing =>
    have hid : existing.id = practitionerId := by
      have := List.find?_some hex
      simpa using this
    simp only []
    rw [getById_setById]
    rw [if_neg]
    show ¬ existing.id = id
    rw [hid]
    exact h

/-- One entry-loop iteration of the enrichment pass never changes the
stored value of a snapshot role whose NPI is truthy. -/
theorem processOptumEntry_preserves (snapshot : List PractitionerRole) (now : Int)
    (r : PractitionerRole)
    (hnd : (snapshot.map PractitionerRole.id).Nodup) (hr : r ∈ snapshot)
    (hnpi : strTruthy r.npi = true)
    (acc : List PractitionerRole × Nat) (entry : OptumEntry)
    (hacc : getById PractitionerRole.id r.id acc.1 = some r) :
    getById PractitionerRole.id r.id (processOptumEntry snapshot now acc entry).1 = some r := by
  unfold processOptumEntry
  cases entry.resource with
  | none => exact hacc
  | some practitioner =>
    dsimp only
    by_cases hty : practitioner.resourceType ≠ "Practitioner"
    · rw [if_pos hty]; exact hacc
    · rw [if_neg hty]
      cases extractNpi practitioner with
      | none => exact hacc
      | some npi =>
        cases hfind : snapshot.find? (fun role => shouldEnrichPractitioner role practitioner) with
        | none => exact hacc
        | some role =>
          have hrole : shouldEnrichPractitioner role practitioner = true := by
            simpa using List.find?_some hfind
          have hmem : role ∈ snapshot := List.mem_of_find?_eq_some hfind
          have hne : role.id ≠ r.id := by
            intro he
            have : role = r := List.inj_on_of_nodup_map hnd hmem hr he
            rw [this] at hrole
            unfold shouldEnrichPractitioner at hrole
            rw [hnpi] at hrole
            simp at hrole
          simp only []
          rw [enrich_preserves_other _ _ _ _ _ hne]
          exact hacc

/-- The whole entry loop preserves truthy-NPI roles. -/
theorem foldl_processOptumEntry_preserves (snapshot : List PractitionerRole) (now : Int)
    (r : PractitionerRole)
    (hnd : (snapshot.map PractitionerRole.id).Nodup) (hr : r ∈ snapshot)
    (hnpi : strTruthy r.npi = true)
    (es : List OptumEntry) (acc : List PractitionerRole × Nat)
    (hacc : getById PractitionerRole.id r.id acc.1 = some r) :
    getById PractitionerRole.id r.id
      (es.foldl (processOptumEntry snapshot now) acc).1 = some r := by
  induction es generalizing acc with
  | nil => exact hacc
  | cons e es ih =>
    exact ih _ (processOptumEntry_preserves snapshot now r hnd hr hnpi acc e hacc)

/-- Claim C4 (amended): a PractitionerRole whose stored NPI is truthy
(non-null and nonempty) is never modified by the directory-matching
loop of an enrichment pass, and its stored value is bit-for-bit
unchanged after the whole pass provided it is not the store's first
practitioner during a pass that matches zero entries — the only case
in which the demonstration fallback overwrites it.  (The original
claim fails at that fallback: see the counterexample.) -/
theorem enrichment_preserves_npi_roles (roles : List PractitionerRole)
    (entries : Option (List OptumEntry)) (now : Int) (r : PractitionerRole)
    (hnd : (roles.map PractitionerRole.id).Nodup)
    (hr : r ∈ roles)
    (hnpi : strTruthy r.npi = true)
    (hsafe : ∀ es, entries = some es →
      (es.foldl (processOptumEntry roles now) (roles, 0)).2 = 0 →
      roles.head?.map PractitionerRole.id ≠ some r.id) :
    getById PractitionerRole.id r.id (enrichWithOptumData entries now roles) = some r := by
  have hacc0 : getById PractitionerRole.id r.id roles = some r :=
    getById_of_mem_nodup roles r hnd hr
  unfold enrichWithOptumData
  cases entries with
  | none => exact hacc0
  | some es =>
    simp only []
    have hfold := foldl_processOptumEntry_preserves roles now r hnd hr hnpi es
      (roles, 0) hacc0
    by_cases hcount : (es.foldl (processOptumEntry roles now) (roles, 0)).2 = 0
    · rw [if_pos hcount]
      have hhead := hsafe es rfl hcount
      cases hroles : roles with
      | nil => rw [hroles] at hfold; exact hfold
      | cons r0 rest =>
        have hne : r0.id ≠ r.id := by
          intro he
          apply hhead
          rw [hroles]
          simp [he]
        rw [hroles] at hfold
        rw [enrich_preserves_other _ _ _ _ _ hne]
        exact hfold
    · rw [if_neg hcount]
      exact hfold

/-- A practitioner that already carries an NPI from a prior pass. -/
def drWithNpi : PractitionerRole :=
  { baseRole with
    id := "pr-npi",
    practitioner := some ⟨some "Dr. Keep Npi"⟩,
    npi := some "9999999999" }

/-- Claim C4 counterexample: with a bundle whose entry array is empty,
zero entries match, so the demonstration fallback fires on the first
(and only) practitioner even though its `npi` is non-null — its stored
NPI is overwritten by the sample payload's `1234567890`. -/
theorem enrichment_fallback_overwrites_counterexample :
    drWithNpi.npi = some "9999999999" ∧
    (getById PractitionerRole.id "pr-npi"
      (enrichWithOptumData (some []) 5 [drWithNpi])).map PractitionerRole.npi =
      some (some "1234567890") :=
  ⟨rfl, rfl⟩

/-- Witness for C4 (amended): in a two-role store whose head has no
NPI, the role with a truthy NPI (not the fallback target) is unchanged
by a pass that matches zero entries. -/
theorem enrichment_preserves_npi_roles_witness :
    getById PractitionerRole.id drWithNpi.id
      (enrichWithOptumData (some []) 5 [drDerm, drWithNpi]) = some drWithNpi :=
  enrichment_preserves_npi_roles [drDerm, drWithNpi] (some []) 5 drWithNpi
    (by decide) (List.Mem.tail _ (List.Mem.head _)) rfl
    (fun es he => by
      injection he with h
      subst h
      intro _
      decide)
